import Mathlib

/-!
A shallow embedding of the core decision logic of the NullablePointersChecker
(clang/lib/StaticAnalyzer/Checkers/NullablePointersChecker.cpp), together with
theorems about the checker's behaviour.  Each definition is translated from the
named source function; line numbers refer to the C++ source.
-/

namespace NPC

/-- `enum class NullableKind` (source line 224). -/
inductive NullableKind
  | NonNullable
  | Nullable
  | VolatileNullable
  deriving DecidableEq, Repr, Fintype

/-- `NullConstraint` (source line 226, `UnknownNullableSVal::NullConstraint`). -/
inductive NullConstraint
  | IsNull
  | IsNotNull
  | Unknown
  deriving DecidableEq, Repr, Fintype

/-- `enum class ConstraintValidity` (source lines 1084-1089). -/
inductive ConstraintValidity
  | Valid
  | AlwaysValid
  | Invalid
  | AlwaysInvalid
  deriving DecidableEq, Repr, Fintype

/-- The diagnostic kinds reachable from the code modelled in this file
(`BugType` members of `NullablePointersChecker`, source lines 879-886). -/
inductive BugKind
  | UndefinedNullable
  | NullablePointerDereference
  | NullptrDereference
  | VolatilePointerEscape
  deriving DecidableEq, Repr, Fintype

/-! ### Marker names (source lines 183-186) -/

def NotNullPtrQualifiedName : String := "gsl::not_null"

def MakeNotNullQualifiedName : String := "gsl::make_not_null"

def StdForwardQualifiedName : String := "std::forward"

def StdMoveQualifiedName : String := "std::move"

/-! ### C1: the dereference check, `NullablePointersChecker::checkPointer`
(source lines 2940-3005).

The function's decision depends only on: whether the checked `SVal` is
undefined, whether the statement is an implicit array-to-pointer decay cast,
the nullability recorded in the `NullabilityMap` for the dereferenced lvalue's
region (if any), and the null constraint of the pointer value. -/

structure CheckPointerInput where
  isUndef : Bool
  isArrayDecayCast : Bool
  nullability : Option NullableKind
  constraint : NullConstraint
  deriving DecidableEq, Repr, Fintype

/-- `NullablePointersChecker::checkPointer` (source lines 2940-3005), reduced to
the diagnostic it emits (`none` means no diagnostic; every `some` diagnostic is
reported through `reportBug`, which generates an error node, i.e. sinks the
path). The branches appear in source order: undefined value (2944-2947 and
2956-2959), array-to-pointer decay early return (2965-2970), `VolatileNullable`
nullability (2988-2991), `NonNullable` nullability (2992-2995), `IsNotNull`
constraint (2996-2999), `IsNull` constraint (3000-3003), fallthrough (3004). -/
def checkPointer (i : CheckPointerInput) : Option BugKind :=
  if i.isUndef then some .UndefinedNullable
  else if i.isArrayDecayCast then none
  else if i.nullability = some .VolatileNullable then some .NullablePointerDereference
  else if i.nullability = some .NonNullable then none
  else if i.constraint = .IsNotNull then none
  else if i.constraint = .IsNull then some .NullptrDereference
  else some .NullablePointerDereference

/-! ### C5: wrapper-type recognition, `isNonNullableType` (source lines 298-302)
and `getNonNullableField` (source lines 304-311).

A record type is modelled by its fully-qualified name and the list of the names
of its non-static data members, in declaration order; `none` models a type that
has no `CXXRecordDecl`. -/

structure RecordType where
  qualifiedName : String
  fields : List String
  deriving DecidableEq, Repr

/-- `isNonNullableType` (source lines 298-302): the type has a record
declaration whose fully-qualified name equals `NotNullPtrQualifiedName`. -/
def isNonNullableType : Option RecordType → Bool
  | none => false
  | some r => r.qualifiedName == NotNullPtrQualifiedName

/-- `getNonNullableField` (source lines 304-311): the first field whose name is
`ptr_`, if any. -/
def getNonNullableField : Option RecordType → Option String
  | none => none
  | some r => r.fields.find? (fun f => f == "ptr_")

/-- The classification described by the spec (section 6): the qualified name
matches *and* the type contains a single non-static data member named `ptr_`. -/
def specWrapperClassified : Option RecordType → Prop
  | none => False
  | some r => r.qualifiedName = NotNullPtrQualifiedName ∧ r.fields = ["ptr_"]

/-! ### C6: the nullable-object classifier, `isNullableObject`
(source lines 348-436).

The classifier inspects a `CXXRecordDecl` through: its constructors, its
visible conversion functions, its friend function declarations, and four
record-level predicates (`hasSimpleCopyConstructor`, `hasTrivialCopyConstructor`,
`hasSimpleCopyAssignment`, `hasTrivialCopyAssignment`).  Parameter types only
matter through `getCXXRecordFromType` (equal to the inspected record or not)
and `isNullPtrType`, so a parameter type is modelled as one of: the record
itself, the null-literal type, or anything else. -/

inductive ParamType
  | selfType
  | nullptrType
  | otherType
  deriving DecidableEq, Repr

/-- The overloaded-operator kind of a function declaration; `none` in
`FriendFunction.op` models a friend that is not an overloaded operator. -/
inductive OverloadedOp
  | opEqualEqual
  | opExclaimEqual
  | opLess
  | opOther
  deriving DecidableEq, Repr

/-- A friend function declaration with its first two parameter types
(the source indexes `parameters()[0]` and `parameters()[1]` directly). -/
structure FriendFunction where
  op : Option OverloadedOp
  param1 : ParamType
  param2 : ParamType
  deriving DecidableEq, Repr

/-- A `CXXConstructorDecl`, restricted to the queries the classifier makes. -/
structure CtorDecl where
  isDefaultConstructor : Bool
  isCopyConstructor : Bool
  isPublic : Bool
  isConvertingConstructor : Bool
  params : List ParamType
  deriving DecidableEq, Repr

/-- A conversion function, restricted to whether its return type is boolean. -/
structure ConversionDecl where
  returnsBool : Bool
  deriving DecidableEq, Repr

structure CXXRecord where
  ctors : List CtorDecl
  hasSimpleCopyConstructor : Bool
  hasTrivialCopyConstructor : Bool
  hasSimpleCopyAssignment : Bool
  hasTrivialCopyAssignment : Bool
  conversions : List ConversionDecl
  friends : List FriendFunction
  deriving DecidableEq, Repr

/-- In the clang AST a `CXXConstructorDecl` is never a copy-assignment
operator, so the source's `any_of(R->ctors(), ... isCopyAssignmentOperator ...)`
(lines 367-369) is constantly false. -/
def ctorIsCopyAssignmentOperator (_ : CtorDecl) : Bool := false

/-- The operand-type test shared by the two friend scans (source lines 407 and
428): both operands are the inspected record itself, or one operand is the
record and the other the null-literal type. -/
def friendOperandsMatch (f : FriendFunction) : Bool :=
  (f.param1 == .selfType && f.param2 == .selfType) ||
  (f.param1 == .selfType && f.param2 == .nullptrType) ||
  (f.param2 == .selfType && f.param1 == .nullptrType)

/-- `isNullableObject` (source lines 348-436), with each conjunct in source
order.  Note that the `HasEQOp` scan (lines 393-408) *skips* any friend that is
`operator==` and otherwise only tests operand types, and the `HasInEQOp` scan
(lines 414-429) likewise skips any friend that is `operator!=`. -/
def isNullableObject (r : CXXRecord) : Bool :=
  let hasDefaultCtor := r.ctors.any fun c => c.isDefaultConstructor && c.isPublic
  let hasCopyCtor := r.ctors.any fun c => c.isCopyConstructor && c.isPublic
  let hasCopyAssignment := r.ctors.any fun c => ctorIsCopyAssignmentOperator c && c.isPublic
  let hasNullPtrConversionCtor := r.ctors.any fun c =>
    c.isConvertingConstructor && c.isPublic && !c.params.isEmpty &&
      c.params.head? == some .nullptrType
  let hasBoolConversion := r.conversions.any fun c => c.returnsBool
  let hasEQOp := r.friends.any fun f =>
    if f.op == some .opEqualEqual then false else friendOperandsMatch f
  let hasInEQOp := r.friends.any fun f =>
    if f.op == some .opExclaimEqual then false else friendOperandsMatch f
  if !hasDefaultCtor then false
  else if !hasCopyCtor && !(r.hasSimpleCopyConstructor || r.hasTrivialCopyConstructor) then false
  else if !hasCopyAssignment && !(r.hasSimpleCopyAssignment || r.hasTrivialCopyAssignment) then false
  else if !hasNullPtrConversionCtor then false
  else if !hasBoolConversion then false
  else if !hasEQOp then false
  else if !hasInEQOp then false
  else true

/-- As the spec words it: the record has a non-member (friend) *equality*
operator whose operands are its own type on both sides or its own type with the
null literal on one side. -/
def specHasEqualityOp (r : CXXRecord) : Bool :=
  r.friends.any fun f => f.op == some .opEqualEqual && friendOperandsMatch f

/-- As the spec words it: the record has a non-member (friend) *inequality*
operator with the operand shapes of `specHasEqualityOp`. -/
def specHasInequalityOp (r : CXXRecord) : Bool :=
  r.friends.any fun f => f.op == some .opExclaimEqual && friendOperandsMatch f

/-- A record satisfying conditions (a)-(d) of the nullable-object predicate
whose only friend is an `operator<` over two operands of its own type: it has
no equality and no inequality operator. -/
def lessOnlyRecord : CXXRecord where
  ctors :=
    [ { isDefaultConstructor := true, isCopyConstructor := false, isPublic := true,
        isConvertingConstructor := false, params := [] },
      { isDefaultConstructor := false, isCopyConstructor := true, isPublic := true,
        isConvertingConstructor := false, params := [.selfType] },
      { isDefaultConstructor := false, isCopyConstructor := false, isPublic := true,
        isConvertingConstructor := true, params := [.nullptrType] } ]
  hasSimpleCopyConstructor := true
  hasTrivialCopyConstructor := true
  hasSimpleCopyAssignment := true
  hasTrivialCopyAssignment := true
  conversions := [⟨true⟩]
  friends := [⟨some .opLess, .selfType, .selfType⟩]

/-! ### C8: null-safe rvalues, `isNullSafeExpr` (source lines 1346-1376), and
the new-expression handling of `checkPostCall` (source lines 3673-3683). -/

/-- `clang::ExceptionSpecificationType`, restricted to the variants an
allocation function's type can carry. -/
inductive ExceptionSpecType
  | estNone
  | estDynamicNone
  | estDynamic
  | estMSAny
  | estNoThrow
  | estBasicNoexcept
  | estDependentNoexcept
  | estNoexceptFalse
  | estNoexceptTrue
  deriving DecidableEq, Repr, Fintype

/-- The cast kinds `isNullSafeExpr` distinguishes. -/
inductive CastKind
  | arrayToPointerDecay
  | functionToPointerDecay
  | userDefinedConversion
  | otherCast
  deriving DecidableEq, Repr

/-- The expression shapes `isNullSafeExpr` distinguishes.  For a new-expression,
`allocFn` is the exception specification of the selected `operator new`
(`none` when `getOperatorNew()` is null).  For a user-defined-conversion cast,
`subIsMemberCallOnWrapper` records whether the sub-expression is a member call
whose object type satisfies `isNonNullableType`. -/
inductive CExpr
  | cxxNew (allocFn : Option ExceptionSpecType)
  | thisExpr
  | unaryOp (isAddrOf : Bool)
  | implicitCast (kind : CastKind) (subIsMemberCallOnWrapper : Bool)
  | paren (sub : CExpr)
  | otherExpr
  deriving DecidableEq, Repr

/-- `Expr::IgnoreParens`. -/
def ignoreParens : CExpr → CExpr
  | .paren e => ignoreParens e
  | e => e

/-- `isNullSafeExpr` (source lines 1346-1376).  `isRawPointerTy` is
`isRawPointerType(E->getType())` (line 1347). -/
def isNullSafeExpr (isRawPointerTy : Bool) (e : CExpr) : Bool :=
  if !isRawPointerTy then false
  else
    match ignoreParens e with
    | .cxxNew allocFn =>
      match allocFn with
      | none => false
      | some es => es != .estBasicNoexcept && es != .estNoexceptTrue
    | .thisExpr => true
    | .unaryOp isAddrOf => isAddrOf
    | .implicitCast k sub =>
      if k == .arrayToPointerDecay || k == .functionToPointerDecay then true
      else if k != .userDefinedConversion then false
      else sub
    | _ => false

/-- The new-expression branch of `checkPostCall` (source lines 3673-3683):
returns `true` exactly when the return value of the new-expression is assumed
non-null (`State->assume(ReturnSVal == 0, false)`).  `none` models a null
`getOperatorNew()`. -/
def postCallNewAssumesNotNull : Option ExceptionSpecType → Bool
  | none => false
  | some es => es != .estBasicNoexcept && es != .estNoexceptTrue

/-- Follows the spec's words: an allocation function is a `noexcept` allocator
when its exception specification guarantees it does not throw by a `noexcept`
specifier (`noexcept` or `noexcept(true)`). -/
def specNoexceptAllocator (es : ExceptionSpecType) : Bool :=
  es == .estBasicNoexcept || es == .estNoexceptTrue

/-! ### C3 and C9: escape records.

`EscapedNullable` maps an lvalue region to an `EscapedNullableState`
(source lines 1091-1107); regions are modelled by natural numbers. -/

/-- `EscapedNullableState` (source lines 1091-1093). -/
structure EscapeRecord where
  constraint : NullConstraint
  validity : ConstraintValidity
  deriving DecidableEq, Repr

abbrev EscapeMap := List (Nat × EscapeRecord)

def lookupEscape (m : EscapeMap) (k : Nat) : Option EscapeRecord :=
  match m.find? (fun p => p.1 == k) with
  | some p => some p.2
  | none => none

/-- `State->set<EscapedNullable>(k, r)`: replace the binding for `k`, or append
it when absent. -/
def setEscape (m : EscapeMap) (k : Nat) (r : EscapeRecord) : EscapeMap :=
  match m with
  | [] => [(k, r)]
  | p :: ps => if p.1 == k then (k, r) :: ps else p :: setEscape ps k r

/-- `ignoreEscapeAnalysis` (source lines 829-836), on the callee's
fully-qualified name. -/
def ignoreEscapeAnalysis (name : String) : Bool :=
  name == MakeNotNullQualifiedName ||
  name == StdForwardQualifiedName ||
  name == StdMoveQualifiedName ||
  name.startsWith NotNullPtrQualifiedName

/-- The escape-record loop of `checkPostCall` (source lines 3788-3823), guarded
by `ignoreEscapeAnalysis` (line 3739): a record is switched to `Invalid` only
when its validity is `Valid` *and* its constraint is not `Unknown`
(line 3817); every other record is left unchanged. -/
def postCallInvalidateEscapes (calleeName : String) (m : EscapeMap) : EscapeMap :=
  if ignoreEscapeAnalysis calleeName then m
  else
    m.map fun p =>
      if p.2.validity == .Valid && p.2.constraint != .Unknown
      then (p.1, ⟨p.2.constraint, .Invalid⟩)
      else p

/-- One pointer/reference level of a call argument, as walked by the escape
loop of `checkPreCall` (source lines 4724-4746): whether the value at this
level is an lvalue `Loc`, the cv-qualification of the pointee type, the null
constraint of the pointed-to value, and the lvalue's region. -/
structure PtrLevel where
  isLValLoc : Bool
  pointeeConst : Bool
  pointeeVolatile : Bool
  constraint : NullConstraint
  region : Nat
  deriving DecidableEq, Repr

/-- The per-argument escape walk of `checkPreCall` (source lines 4724-4746).
At each lvalue level: a non-const volatile pointee reports
`VolatilePointerEscape` and returns at once (lines 4732-4735) — the state
accumulated so far is the one the report is issued on, and no record is
written for the level; otherwise a record with validity `AlwaysValid` (const
pointee) or `Valid` is written (lines 4737-4739). -/
def recordArgEscapes : List PtrLevel → EscapeMap → EscapeMap × Option BugKind
  | [], m => (m, none)
  | l :: ls, m =>
    if l.isLValLoc then
      if !l.pointeeConst && l.pointeeVolatile then (m, some .VolatilePointerEscape)
      else
        recordArgEscapes ls
          (setEscape m l.region
            ⟨l.constraint, if l.pointeeConst then .AlwaysValid else .Valid⟩)
    else recordArgEscapes ls m

/-- The level used in the volatile-escape counterexample. -/
def volatileLevel : PtrLevel :=
  { isLValLoc := true, pointeeConst := false, pointeeVolatile := true,
    constraint := .Unknown, region := 7 }

/-! ### C10: `NullablePointersChecker::checkBeginFunction`
(source lines 3927-4002). -/

/-- `isInterProcedural` on a function's qualified name (source lines 803-811). -/
def isInterProcedural (name : String) : Bool :=
  name == MakeNotNullQualifiedName ||
  name.startsWith NotNullPtrQualifiedName ||
  name == StdForwardQualifiedName ||
  name == StdMoveQualifiedName

/-- The function-declaration facts `checkBeginFunction` consumes:
`FD->isImplicit()`, the qualified name, and per parameter whether its type
satisfies `isNonNullableType`. -/
structure FunctionDeclInfo where
  isImplicit : Bool
  qualifiedName : String
  paramIsNonNullable : List Bool
  deriving DecidableEq, Repr

/-- The outcome of `checkBeginFunction`: a sink (`C.addSink()`), a plain return
with no state change (the engine then generates the default transition), or a
transition whose state has the bindings of the listed parameter indices
killed. -/
inductive BeginFunctionResult
  | sinkResult
  | passThrough
  | killParamBindings (killed : List Nat)
  deriving DecidableEq, Repr

/-- `checkBeginFunction` (source lines 3927-4002) in source order: implicit
declarations sink (lines 3943-3946); the top frame returns unchanged (lines
3950-3976); allow-listed callees return unchanged (lines 3978-3980); otherwise
the binding of every parameter that is not of the non-nullable wrapper type is
killed (lines 3987-3999). -/
def checkBeginFunction (fd : FunctionDeclInfo) (inTopFrame : Bool) : BeginFunctionResult :=
  if fd.isImplicit then .sinkResult
  else if inTopFrame then .passThrough
  else if isInterProcedural fd.qualifiedName then .passThrough
  else
    .killParamBindings
      ((List.range fd.paramIsNonNullable.length).filter fun i =>
        !(fd.paramIsNonNullable.getD i false))

/-- The number of successor states a `checkBeginFunction` outcome contributes:
a sink has none. -/
def beginFunctionSuccessorCount : BeginFunctionResult → Nat
  | .sinkResult => 0
  | .passThrough => 1
  | .killParamBindings _ => 1

/-! ### C4: `NullablePointersChecker::checkLoopCondition`, second block visit
(source lines 4973-4999).

The state components the branch touches are the `WeakenMap` and
`WeakenSynonyms` maps (both cleared on the loop-exit transitions).  The
condition `SVal` is either a concrete constant (`isConstant`) or a
non-constant value; for a non-constant value, `State->assume` yields the pair
of refined states, each present exactly when the corresponding assumption is
feasible. -/

structure LoopWeakenState where
  weakenMap : List (Nat × Bool)
  weakenSynonyms : List (Nat × Nat)
  deriving DecidableEq, Repr

/-- The loop-condition value: a concrete constant, or a symbolic value with the
feasibility of assuming it true resp. false. -/
inductive CondSVal
  | concreteVal (isZero : Bool)
  | symbolicVal (canBeTrue canBeFalse : Bool)
  deriving DecidableEq, Repr

def CondSVal.isConstant : CondSVal → Bool
  | .concreteVal _ => true
  | .symbolicVal _ _ => false

def CondSVal.isZeroConstant : CondSVal → Bool
  | .concreteVal z => z
  | .symbolicVal _ _ => false

/-- Whether the condition value can evaluate to true on some path. -/
def CondSVal.canTrue : CondSVal → Bool
  | .concreteVal z => !z
  | .symbolicVal t _ => t

/-- Whether the condition value can evaluate to false on some path. -/
def CondSVal.canFalse : CondSVal → Bool
  | .concreteVal z => z
  | .symbolicVal _ f => f

/-- A successor generated at the loop condition: an explicit transition to a
state in which the condition has been assumed true or false, a default
transition with the unchanged state (generated by the engine when the checker
adds no transition), or a sink. -/
inductive LoopCondSucc
  | nodeAssumed (assumedTrue : Bool) (st : LoopWeakenState)
  | nodeDefault (st : LoopWeakenState)
  | sinkNode
  deriving DecidableEq, Repr

/-- Clearing `WeakenMap` and `WeakenSynonyms`
(source lines 4978-4981 and 4992-4995). -/
def clearWeakenMaps (_ : LoopWeakenState) : LoopWeakenState :=
  { weakenMap := [], weakenSynonyms := [] }

/-- The `blockCount() == 2` branch of `checkLoopCondition` (source lines
4973-4997).  For a non-constant condition, only the assumed-false state is
transitioned, with the weaken maps cleared (lines 4975-4983); when the false
assumption is infeasible no transition is added and the engine generates the
default transition with the unchanged state.  A non-zero constant condition is
sunk (lines 4988-4991); a zero constant transitions with the weaken maps
cleared (lines 4992-4996). -/
def loopCondSecondVisit (st : LoopWeakenState) (c : CondSVal) : List LoopCondSucc :=
  if !c.isConstant then
    if c.canFalse then [.nodeAssumed false (clearWeakenMaps st)]
    else [.nodeDefault st]
  else if !c.isZeroConstant then [.sinkNode]
  else [.nodeDefault (clearWeakenMaps st)]

/-- Whether a successor continues into the loop body: an explicit assumed-true
transition does; a default transition does exactly when the engine's branch on
the unchanged condition can take the true edge. -/
def entersLoopBody (c : CondSVal) : LoopCondSucc → Bool
  | .nodeAssumed b _ => b
  | .nodeDefault _ => c.canTrue
  | .sinkNode => false

/-- Whether a successor exits the loop, dually to `entersLoopBody`. -/
def exitsLoop (c : CondSVal) : LoopCondSucc → Bool
  | .nodeAssumed b _ => !b
  | .nodeDefault _ => c.canFalse
  | .sinkNode => false

def isSinkSucc : LoopCondSucc → Bool
  | .sinkNode => true
  | _ => false

/-- Whether a successor's weaken maps are empty (a sink carries no state). -/
def weakenMapsCleared : LoopCondSucc → Bool
  | .nodeAssumed _ st => st.weakenMap.isEmpty && st.weakenSynonyms.isEmpty
  | .nodeDefault st => st.weakenMap.isEmpty && st.weakenSynonyms.isEmpty
  | .sinkNode => true

/-- A state with a pending weaken mark, used in the C4 counterexample. -/
def loopStateEx : LoopWeakenState := { weakenMap := [(0, true)], weakenSynonyms := [] }

/-! ### C2 and C7: the nullable-object alias graph, namespace `dno`
(source lines 2482-2684).

`NullableObjectStateKey`s and raw-pointer symbols are modelled by natural
numbers.  An `llvm::ImmutableSet` of keys is modelled by a strictly sorted
list, matching the set's ordered iteration.  The maps `DNOConstraintMap`,
`DNOAliasMap`, `DNOToPtrAliasMap`, `PtrToDNOAliasMap` and the null constraints
the constraint store records for raw-pointer symbols are association lists.

Throughout the `dno` worklist loops the source captures
`auto I = Pending.begin(); auto E = Pending.end();` *before* the loop body
appends to `Pending` (lines 2505-2506, 2582-2583, 2608-2609, 2656-2657), so
only the elements initially in `Pending` are ever processed; everything
appended inside a loop lies beyond the captured end and is never visited.
The folds below therefore run over the initial worklist contents only. -/

abbrev DNOKey := Nat
abbrev SymKey := Nat
abbrev KeySet := List DNOKey

/-- `F.add`: insert into the sorted, duplicate-free key set. -/
def ksAdd : KeySet → DNOKey → KeySet
  | [], k => [k]
  | x :: xs, k =>
    if k < x then k :: x :: xs
    else if k = x then x :: xs
    else x :: ksAdd xs k

/-- `F.remove`. -/
def ksRemove (s : KeySet) (k : DNOKey) : KeySet :=
  s.filter fun x => x ≠ k

def alookup : List (Nat × α) → Nat → Option α
  | [], _ => none
  | p :: ps, k => if p.1 = k then some p.2 else alookup ps k

/-- Replace the binding for `k`, or append it when absent. -/
def aset : List (Nat × α) → Nat → α → List (Nat × α)
  | [], k, v => [(k, v)]
  | p :: ps, k, v => if p.1 = k then (k, v) :: ps else p :: aset ps k v

/-- The program-state fragment owned by the alias graph. -/
structure DNOState where
  dnoConstraints : List (DNOKey × NullConstraint)
  dnoAliases : List (DNOKey × KeySet)
  dnoToSym : List (DNOKey × List SymKey)
  symToDno : List (SymKey × KeySet)
  symConstraints : List (SymKey × NullConstraint)
  aliasGuard : Bool
  deriving DecidableEq, Repr

def dnoEmpty : DNOState :=
  { dnoConstraints := [], dnoAliases := [], dnoToSym := [], symToDno := [],
    symConstraints := [], aliasGuard := false }

/-- `dno::createConstraint` (source lines 2484-2486). -/
def createConstraint (s : DNOState) (k : DNOKey) (c : NullConstraint) : DNOState :=
  { s with dnoConstraints := aset s.dnoConstraints k c }

/-- One iteration of the worklist loop of `dno::setAliasInternal`
(source lines 2507-2523): skip `LK` itself and already-visited keys; under
`Break`, skip keys without an alias set and remove `LK` from the others' sets;
otherwise add `LK` to the key's set (creating it when absent).  The appends to
`Pending` (line 2522) are never visited and so do not appear. -/
def setAliasStep (lk : DNOKey) (brk : Bool) (acc : DNOState × List DNOKey) (k : DNOKey) :
    DNOState × List DNOKey :=
  let (s, visited) := acc
  if k = lk then acc
  else if k ∈ visited then acc
  else
    match alookup s.dnoAliases k with
    | none =>
      if brk then acc
      else ({ s with dnoAliases := aset s.dnoAliases k (ksAdd [] lk) }, k :: visited)
    | some als =>
      let upd := if brk then ksRemove als lk else ksAdd als lk
      ({ s with dnoAliases := aset s.dnoAliases k upd }, k :: visited)

/-- `dno::setAliasInternal` (source lines 2488-2526).  With no alias set for
`LK`: return unchanged under `Break`, otherwise create `LK ↦ {RK}` and seed the
worklist from the created set.  With an existing set, seed the worklist from
it; note that in this case `RK` is *not* added to `LK`'s own set (the only
addition to `LK`'s set happens in the creation branch, lines 2494-2498), and
under `Break` the only removal of `RK` from `LK`'s set sits in the unreachable
branch at lines 2502-2503 (its guard `Break && !Aliases` contradicts the early
return at line 2490). -/
def setAliasInternal (s : DNOState) (lk rk : DNOKey) (brk : Bool) : DNOState :=
  match alookup s.dnoAliases lk with
  | none =>
    if brk then s
    else
      let s1 := { s with dnoAliases := aset s.dnoAliases lk (ksAdd [] rk) }
      ((ksAdd [] rk).foldl (setAliasStep lk brk) (s1, [])).1
  | some als => (als.foldl (setAliasStep lk brk) (s, [])).1

/-- `dno::addAlias` (source lines 2528-2531). -/
def addAlias (s : DNOState) (lk rk : DNOKey) : DNOState :=
  setAliasInternal (setAliasInternal s lk rk false) rk lk false

/-- `dno::breakAlias` (source lines 2533-2542). -/
def breakAlias (s : DNOState) (lk rk : DNOKey) : DNOState :=
  setAliasInternal (setAliasInternal s lk rk true) rk lk true

/-- `dno::breakAliases` (source lines 2544-2553): iterate over the alias set
fetched from the incoming state. -/
def breakAliases (s : DNOState) (lk : DNOKey) : DNOState :=
  match alookup s.dnoAliases lk with
  | none => s
  | some als => als.foldl (fun st k => breakAlias st lk k) s

/-- `dno::updateConstraint` over a nullable-object alias set (source lines
2606-2618): with the worklist's end captured before appends, exactly the keys
of the given set receive the constraint. -/
def updateConstraintOnKeys (s : DNOState) (als : KeySet) (c : NullConstraint) : DNOState :=
  als.foldl (fun st k => { st with dnoConstraints := aset st.dnoConstraints k c }) s

/-- `dno::updateConstraint` over raw-pointer symbol aliases (source lines
2620-2629): under the alias guard, each symbol is assumed non-null when the
constraint is `IsNotNull` and null otherwise
(`State->assume(SymV, C == NullConstraint::IsNotNull)`). -/
def updateConstraintOnSyms (s : DNOState) (syms : List SymKey) (c : NullConstraint) : DNOState :=
  let s1 := { s with aliasGuard := true }
  let s2 := syms.foldl (fun st sy =>
    let assumed := aset st.symConstraints sy (if c = .IsNotNull then .IsNotNull else .IsNull)
    { st with symConstraints := assumed }) s1
  { s2 with aliasGuard := false }

/-- `dno::updateConstraint` on a nullable-object key (source lines 2631-2642):
set the key's constraint, then update its direct nullable-object aliases, then
its direct symbol aliases. -/
def updateConstraintKey (s : DNOState) (k : DNOKey) (c : NullConstraint) : DNOState :=
  let s1 := { s with dnoConstraints := aset s.dnoConstraints k c }
  let s2 :=
    match alookup s1.dnoAliases k with
    | some als => updateConstraintOnKeys s1 als c
    | none => s1
  match alookup s2.dnoToSym k with
  | some syms => updateConstraintOnSyms s2 syms c
  | none => s2

/-- The inner symbol loop of `dno::updateConstraint` on a raw-pointer symbol
(source lines 2669-2678): guarded assumption per unvisited symbol; the appends
to `Pending` (line 2677) are never visited. -/
def updateSymStep (c : NullConstraint) (acc : DNOState × List DNOKey × List SymKey)
    (sa : SymKey) : DNOState × List DNOKey × List SymKey :=
  let (st, vDno, vSym) := acc
  if sa ∈ vSym then acc
  else
    let st1 := { st with aliasGuard := true }
    let assumed := aset st1.symConstraints sa (if c = .IsNotNull then .IsNotNull else .IsNull)
    let st2 := { st1 with symConstraints := assumed }
    let st3 := { st2 with aliasGuard := false }
    (st3, vDno, sa :: vSym)

/-- One iteration of the worklist loop of `dno::updateConstraint` on a
raw-pointer symbol (source lines 2658-2678): set the nullable-object key's
constraint, then run the symbol loop over its direct symbol aliases; the
appends to `Pending` (lines 2665, 2677) are never visited. -/
def updateSymKeyStep (c : NullConstraint) (acc : DNOState × List DNOKey × List SymKey)
    (k : DNOKey) : DNOState × List DNOKey × List SymKey :=
  let (st, vDno, vSym) := acc
  if k ∈ vDno then acc
  else
    let st1 := { st with dnoConstraints := aset st.dnoConstraints k c }
    let vDno1 := k :: vDno
    match alookup st1.dnoToSym k with
    | none => (st1, vDno1, vSym)
    | some symAliases => symAliases.foldl (updateSymStep c) (st1, vDno1, vSym)

/-- `dno::updateConstraint` on a raw-pointer symbol (source lines 2644-2682):
seed the worklist with the symbol's direct nullable-object aliases and process
only those (the end iterator is captured before any append). -/
def updateConstraintSym (s : DNOState) (sym : SymKey) (c : NullConstraint) : DNOState :=
  match alookup s.symToDno sym with
  | none => s
  | some pending => (pending.foldl (updateSymKeyStep c) (s, [], [sym])).1

/-- The state built by `add_alias(0,1); add_alias(1,2)` over keys `0,1,2` with
recorded `Unknown` constraints: keys `0` and `2` are transitively aliased
through `1` but not directly adjacent. -/
def chainState : DNOState :=
  addAlias
    (addAlias
      (createConstraint (createConstraint (createConstraint dnoEmpty 0 .Unknown) 1 .Unknown)
        2 .Unknown)
      0 1)
    1 2

/-- The state built by `add_alias(0,1)` over keys `0,1`, both constrained
`IsNotNull`. -/
def pairState : DNOState :=
  addAlias (createConstraint (createConstraint dnoEmpty 0 .IsNotNull) 1 .IsNotNull) 0 1

/-- `break_alias(add_alias(s,0,1), 0)`. -/
def brokenPairState : DNOState := breakAliases pairState 0

/-! ## Theorems -/

/-! ### Helper lemmas -/

theorem lookupEscape_cons (p : Nat × EscapeRecord) (ps : EscapeMap) (j : Nat) :
    lookupEscape (p :: ps) j = if p.1 = j then some p.2 else lookupEscape ps j := by
  by_cases h : p.1 = j
  · rw [lookupEscape, List.find?_cons_of_pos _ (by simp [h])]
    simp [h]
  · rw [lookupEscape, List.find?_cons_of_neg _ (by simp [h])]
    simp [lookupEscape, h]

theorem lookupEscape_setEscape (m : EscapeMap) (k : Nat) (r : EscapeRecord) (j : Nat) :
    lookupEscape (setEscape m k r) j = if j = k then some r else lookupEscape m j := by
  induction m with
  | nil =>
    rw [show setEscape [] k r = [(k, r)] from rfl, lookupEscape_cons]
    by_cases h : j = k
    · simp [h]
    · have h1 : ¬ k = j := fun hh => h hh.symm
      simp [h1, h, lookupEscape, List.find?]
  | cons p ps ih =>
    by_cases hp : p.1 = k
    · rw [show setEscape (p :: ps) k r = (k, r) :: ps from by simp [setEscape, hp],
        lookupEscape_cons, lookupEscape_cons]
      by_cases hj : j = k
      · simp [hj]
      · have h1 : ¬ k = j := fun hh => hj hh.symm
        have h2 : ¬ p.1 = j := by rw [hp]; exact h1
        simp [h1, h2, hj]
    · rw [show setEscape (p :: ps) k r = p :: setEscape ps k r from by simp [setEscape, hp],
        lookupEscape_cons, lookupEscape_cons]
      by_cases hj : p.1 = j
      · have h1 : ¬ j = k := fun hh => hp (by rw [hj, hh])
        simp [hj, h1]
      · simp [hj, ih]

theorem recordArgEscapes_no_alwaysInvalid (ls : List PtrLevel) :
    ∀ (m : EscapeMap) (k : Nat) (r : EscapeRecord),
      lookupEscape (recordArgEscapes ls m).1 k = some r →
      r.validity = .AlwaysInvalid → lookupEscape m k = some r := by
  induction ls with
  | nil => intro m k r h _; simpa [recordArgEscapes] using h
  | cons l ls ih =>
    intro m k r h hv
    by_cases hl : l.isLValLoc
    · by_cases hvv : (!l.pointeeConst && l.pointeeVolatile) = true
      · simpa [recordArgEscapes, hl, hvv] using h
      · have h' : lookupEscape
            (recordArgEscapes ls
              (setEscape m l.region
                ⟨l.constraint, if l.pointeeConst then .AlwaysValid else .Valid⟩)).1 k
            = some r := by
          simpa [recordArgEscapes, hl, hvv] using h
        have h2 := ih _ k r h' hv
        rw [lookupEscape_setEscape] at h2
        by_cases hk : k = l.region
        · exfalso
          rw [if_pos hk] at h2
          have : r.validity = (if l.pointeeConst then ConstraintValidity.AlwaysValid
              else ConstraintValidity.Valid) := by
            cases h2; rfl
          rw [hv] at this
          by_cases hc : l.pointeeConst <;> simp [hc] at this
        · rwa [if_neg hk] at h2
    · have h' : lookupEscape (recordArgEscapes ls m).1 k = some r := by
        simpa [recordArgEscapes, hl] using h
      exact ih m k r h' hv

/-! ### C1: the dereference-check decision -/

/-- C1, counterexample: at an input whose recorded nullability is
`VolatileNullable` and whose null constraint is `IsNotNull`, condition (a) of
the claim holds, yet `checkPointer` emits a diagnostic — so "no diagnostic iff
(a) or (b)" is false at this input. -/
theorem checkPointer_iff_counterexample :
    checkPointer ⟨false, false, some .VolatileNullable, .IsNotNull⟩ ≠ none ∧
      (NullConstraint.IsNotNull = .IsNotNull ∨
        (some NullableKind.VolatileNullable) = some NullableKind.NonNullable) := by
  decide

/-- C1, amended: `checkPointer` emits no diagnostic iff the value is defined
and either the statement is an array-to-pointer decay cast, or the recorded
nullability is not `VolatileNullable` and ((a) the null constraint is
`IsNotNull` or (b) the recorded nullability is `NonNullable`). -/
theorem checkPointer_no_diagnostic_iff :
    ∀ i : CheckPointerInput,
      checkPointer i = none ↔
        (i.isUndef = false ∧
          (i.isArrayDecayCast = true ∨
            (i.nullability ≠ some .VolatileNullable ∧
              (i.constraint = .IsNotNull ∨ i.nullability = some .NonNullable)))) := by
  decide

/-! ### C2: transitive constraint propagation across the alias graph -/

/-- C2: in the state built by `add_alias(0,1); add_alias(1,2)`, keys `0` and
`2` are in the same alias equivalence class (through `1`), yet
`updateConstraint(2, IsNotNull)` leaves key `0` at `Unknown` while keys `1` and
`2` hold `IsNotNull`: the update is not propagated transitively, because the
worklist's end iterator is captured before the loop appends the next ring of
aliases. -/
theorem updateConstraint_not_transitive_on_chain :
    (1 ∈ (alookup chainState.dnoAliases 0).getD []) ∧
    (2 ∈ (alookup chainState.dnoAliases 1).getD []) ∧
    alookup (updateConstraintKey chainState 2 .IsNotNull).dnoConstraints 2
      = some .IsNotNull ∧
    alookup (updateConstraintKey chainState 2 .IsNotNull).dnoConstraints 1
      = some .IsNotNull ∧
    alookup (updateConstraintKey chainState 2 .IsNotNull).dnoConstraints 0
      = some .Unknown := by
  decide

/-! ### C3: escape-record invalidation on calls -/

/-- C3, counterexample: a record with validity `Valid` and constraint `Unknown`
is left `Valid` by the post-call invalidation loop, though the claim requires
every `Valid` record to become `Invalid`. -/
theorem postCall_valid_unknown_record_kept :
    postCallInvalidateEscapes "some_fn" [(0, ⟨.Unknown, .Valid⟩)]
        = [(0, ⟨.Unknown, .Valid⟩)] ∧
      ConstraintValidity.Valid ≠ ConstraintValidity.Invalid := by
  decide

/-- C3, amended: for a call that is not allow-listed, an escape record with
validity `Valid` *and a constraint other than `Unknown`* becomes `Invalid`
(keeping its constraint); a `Valid` record with `Unknown` constraint and an
`AlwaysValid` record are left unchanged. -/
theorem postCall_escape_invalidation (name : String) (m : EscapeMap) (k : Nat)
    (r : EscapeRecord) (hn : ignoreEscapeAnalysis name = false) (hm : (k, r) ∈ m) :
    (r.validity = .Valid → r.constraint ≠ .Unknown →
      (k, (⟨r.constraint, .Invalid⟩ : EscapeRecord)) ∈ postCallInvalidateEscapes name m) ∧
    (r.validity = .AlwaysValid → (k, r) ∈ postCallInvalidateEscapes name m) ∧
    (r.validity = .Valid → r.constraint = .Unknown →
      (k, r) ∈ postCallInvalidateEscapes name m) := by
  have hmap : postCallInvalidateEscapes name m
      = m.map (fun p =>
          if p.2.validity == ConstraintValidity.Valid
              && p.2.constraint != NullConstraint.Unknown
          then (p.1, (⟨p.2.constraint, ConstraintValidity.Invalid⟩ : EscapeRecord))
          else p) := by
    simp [postCallInvalidateEscapes, hn]
  refine ⟨fun h1 h2 => ?_, fun h1 => ?_, fun h1 h2 => ?_⟩
  · rw [hmap]
    have hmem := List.mem_map_of_mem (f := fun p =>
      if p.2.validity == ConstraintValidity.Valid
          && p.2.constraint != NullConstraint.Unknown
      then (p.1, (⟨p.2.constraint, ConstraintValidity.Invalid⟩ : EscapeRecord))
      else p) hm
    simpa [h1, h2] using hmem
  · rw [hmap]
    have hmem := List.mem_map_of_mem (f := fun p =>
      if p.2.validity == ConstraintValidity.Valid
          && p.2.constraint != NullConstraint.Unknown
      then (p.1, (⟨p.2.constraint, ConstraintValidity.Invalid⟩ : EscapeRecord))
      else p) hm
    simpa [h1] using hmem
  · rw [hmap]
    have hmem := List.mem_map_of_mem (f := fun p =>
      if p.2.validity == ConstraintValidity.Valid
          && p.2.constraint != NullConstraint.Unknown
      then (p.1, (⟨p.2.constraint, ConstraintValidity.Invalid⟩ : EscapeRecord))
      else p) hm
    simpa [h1, h2] using hmem

/-- Witness for `postCall_escape_invalidation` at a concrete record. -/
theorem postCall_escape_invalidation_witness :
    (0, (⟨.IsNotNull, .Invalid⟩ : EscapeRecord)) ∈
      postCallInvalidateEscapes "some_fn" [(0, ⟨.IsNotNull, .Valid⟩)] :=
  (postCall_escape_invalidation "some_fn" [(0, ⟨.IsNotNull, .Valid⟩)] 0
      ⟨.IsNotNull, .Valid⟩ (by decide) (by simp)).1 rfl (by decide)

/-! ### C4: the second visit of a loop condition -/

/-- C4, counterexample: at the second block visit with an unknown condition
(both assumptions feasible), the generated successors contain no transition
into the loop body — the path does not fork, contradicting the claim. -/
theorem loopCond_unknown_no_fork :
    (loopCondSecondVisit loopStateEx (.symbolicVal true true)).any
        (entersLoopBody (.symbolicVal true true)) = false ∧
      (loopCondSecondVisit loopStateEx (.symbolicVal true true)).any
        (exitsLoop (.symbolicVal true true)) = true := by
  decide

/-- C4, amended: at the second block visit the path continues into the loop
body only when the condition is non-constant and constrained true; a successor
that exits the loop exists exactly when the false assumption is feasible, and
every such successor has the weaken maps cleared; a constant-true condition
sinks the path.  In particular an unknown condition produces only the exit
successor and never forks. -/
theorem loopCond_secondVisit_behaviour :
    ∀ (st : LoopWeakenState) (c : CondSVal),
      ((loopCondSecondVisit st c).any (entersLoopBody c)
          = (!c.isConstant && c.canTrue && !c.canFalse)) ∧
      ((loopCondSecondVisit st c).any (exitsLoop c) = c.canFalse) ∧
      ((loopCondSecondVisit st c).any isSinkSucc
          = (c.isConstant && !c.isZeroConstant)) ∧
      ((loopCondSecondVisit st c).all
          (fun s => !exitsLoop c s || weakenMapsCleared s) = true) := by
  intro st c
  rcases c with z | ⟨t, f⟩
  · cases z <;>
      simp [loopCondSecondVisit, entersLoopBody, exitsLoop, isSinkSucc,
        weakenMapsCleared, clearWeakenMaps, CondSVal.isConstant,
        CondSVal.isZeroConstant, CondSVal.canTrue, CondSVal.canFalse]
  · cases t <;> cases f <;>
      simp [loopCondSecondVisit, entersLoopBody, exitsLoop, isSinkSucc,
        weakenMapsCleared, clearWeakenMaps, CondSVal.isConstant,
        CondSVal.isZeroConstant, CondSVal.canTrue, CondSVal.canFalse]

/-! ### C5: wrapper-type recognition -/

/-- C5, counterexample: a record named `gsl::not_null` with *no* data members
is classified as the non-nullable wrapper by `isNonNullableType`, though the
claim requires a single member named `ptr_`. -/
theorem isNonNullableType_no_field_counterexample :
    isNonNullableType (some ⟨"gsl::not_null", []⟩) = true ∧
      ¬ specWrapperClassified (some ⟨"gsl::not_null", []⟩) := by
  refine ⟨by decide, fun h => ?_⟩
  simp only [specWrapperClassified] at h
  exact absurd h.2 (by decide)

/-- C5, amended: a type is classified as the non-nullable wrapper iff it has a
record declaration whose fully-qualified name is exactly `gsl::not_null`; the
`ptr_` member is looked up separately by `getNonNullableField`, which succeeds
iff *some* field is named `ptr_` (neither uniqueness nor presence of the field
is part of the classification). -/
theorem isNonNullableType_name_only :
    ∀ T : Option RecordType,
      (isNonNullableType T = true ↔
        ∃ r, T = some r ∧ r.qualifiedName = NotNullPtrQualifiedName) ∧
      ((getNonNullableField T).isSome = true ↔
        ∃ r, T = some r ∧ "ptr_" ∈ r.fields) := by
  intro T
  cases T with
  | none => simp [isNonNullableType, getNonNullableField]
  | some r =>
    constructor
    · simp [isNonNullableType]
    · constructor
      · intro h
        rcases List.find?_isSome.mp h with ⟨x, hx, hp⟩
        have hxe : x = "ptr_" := by simpa using hp
        exact ⟨r, rfl, hxe ▸ hx⟩
      · rintro ⟨r', hr', hmem⟩
        cases hr'
        exact List.find?_isSome.mpr ⟨"ptr_", hmem, by simp⟩

/-! ### C6: the nullable-object classifier and equality operators -/

/-- C6: `lessOnlyRecord` satisfies conditions (a)-(d) and its only friend is
`operator<`, yet `isNullableObject` accepts it although it has neither a
non-member equality nor a non-member inequality operator — the friend scans
skip exactly the operator they are meant to find and accept any other friend
with matching operand types. -/
theorem isNullableObject_accepts_without_eq_ops :
    isNullableObject lessOnlyRecord = true ∧
      specHasEqualityOp lessOnlyRecord = false ∧
      specHasInequalityOp lessOnlyRecord = false := by
  decide

/-! ### C7: breaking an alias -/

/-- C7: after `break_alias(add_alias(s,0,1), 0)`, key `1` is removed from no
longer lists `0`, but key `0` still lists `1` in its alias set, and a
constraint update on `0` still propagates to `1` — the two keys are not
dissociated, though both retain their constraints. -/
theorem breakAlias_keeps_forward_edge :
    alookup brokenPairState.dnoAliases 0 = some [1] ∧
    alookup brokenPairState.dnoAliases 1 = some [] ∧
    alookup brokenPairState.dnoConstraints 0 = some .IsNotNull ∧
    alookup brokenPairState.dnoConstraints 1 = some .IsNotNull ∧
    alookup (updateConstraintKey brokenPairState 0 .IsNull).dnoConstraints 1
      = some .IsNull := by
  decide

/-! ### C8: new-expressions and noexcept allocation functions -/

/-- C8: a new-expression whose selected allocation function is not declared
`noexcept` is null-safe and its result is assumed non-null by `checkPostCall`;
with a `noexcept` allocation function it is neither.  The two code sites agree
on every exception-specification kind. -/
theorem newExpr_nullSafe_iff_not_noexcept :
    ∀ es : ExceptionSpecType,
      (isNullSafeExpr true (.cxxNew (some es)) = true ↔
        specNoexceptAllocator es = false) ∧
      (postCallNewAssumesNotNull (some es) = true ↔
        specNoexceptAllocator es = false) ∧
      isNullSafeExpr true (.cxxNew (some es)) = postCallNewAssumesNotNull (some es) := by
  decide

/-! ### C9: volatile pointer escapes -/

/-- C9, counterexample: walking a single non-const volatile lvalue level
reports `VolatilePointerEscape`, but the resulting escape map holds *no*
record for the affected region — in particular none with validity
`AlwaysInvalid`. -/
theorem volatileEscape_no_record_counterexample :
    (recordArgEscapes [volatileLevel] []).2 = some .VolatilePointerEscape ∧
      lookupEscape (recordArgEscapes [volatileLevel] []).1 volatileLevel.region = none := by
  decide

/-- C9, amended: a non-const volatile level makes the escape walk report
`VolatilePointerEscape` and stop at once, leaving the escape map as it was;
moreover the walk never produces a record with validity `AlwaysInvalid` — any
such record in the result was already in the input map. -/
theorem volatileEscape_reports_without_alwaysInvalid
    (l : PtrLevel) (ls rest : List PtrLevel) (m : EscapeMap) (k : Nat) (r : EscapeRecord)
    (h1 : l.isLValLoc = true) (h2 : l.pointeeConst = false) (h3 : l.pointeeVolatile = true) :
    recordArgEscapes (l :: ls) m = (m, some .VolatilePointerEscape) ∧
      (lookupEscape (recordArgEscapes rest m).1 k = some r →
        r.validity = .AlwaysInvalid → lookupEscape m k = some r) := by
  constructor
  · simp [recordArgEscapes, h1, h2, h3]
  · exact fun h hv => recordArgEscapes_no_alwaysInvalid rest m k r h hv

/-- Witness for `volatileEscape_reports_without_alwaysInvalid` at the concrete
volatile level. -/
theorem volatileEscape_reports_without_alwaysInvalid_witness :
    recordArgEscapes [volatileLevel] [] = ([], some .VolatilePointerEscape) :=
  (volatileEscape_reports_without_alwaysInvalid volatileLevel [] [] [] 0
      ⟨.Unknown, .Valid⟩ rfl rfl rfl).1

/-! ### C10: implicit functions sink at BeginFunction -/

/-- C10: entering any function whose declaration is implicit sinks the path at
`checkBeginFunction` — the result is the sink outcome, which contributes no
successor states, so nothing inside the function is analyzed. -/
theorem implicitFunction_beginFunction_sinks (fd : FunctionDeclInfo) (top : Bool)
    (h : fd.isImplicit = true) :
    checkBeginFunction fd top = .sinkResult ∧
      beginFunctionSuccessorCount (checkBeginFunction fd top) = 0 := by
  simp [checkBeginFunction, h, beginFunctionSuccessorCount]

/-- Witness for `implicitFunction_beginFunction_sinks` at a concrete
compiler-generated declaration. -/
theorem implicitFunction_beginFunction_sinks_witness :
    checkBeginFunction ⟨true, "S::S", []⟩ true = .sinkResult ∧
      beginFunctionSuccessorCount (checkBeginFunction ⟨true, "S::S", []⟩ true) = 0 :=
  implicitFunction_beginFunction_sinks ⟨true, "S::S", []⟩ true rfl

end NPC
